import Mathlib

/-!
# Verification of the PR-allocation / code-storage / gateway services

Shallow embedding of the Go sources of `Meldy183/pr-allocation-service`:

* the primary PR-allocation service (reviewer count K = 1, package
  `github.com/Meldy183/pr-allocation-service`, service layer embedded in
  `frontend/src/App.tsx`);
* the alternate PR-allocation profile (reviewer count K = 2,
  `internal/service/service.go` — its domain has only the statuses
  `OPEN`/`MERGED` and no `approved_by` field);
* the code-storage (commit DAG) service (`unnamed/part_003` service layer,
  `unnamed/part_007` postgres layer);
* the user-gateway orchestration
  (`user-gateway-service/internal/service/service.go`).

Database tables are modelled as lists; each Go storage method is translated
statement by statement.  Randomness (`rand.Shuffle`, `rand.Intn`) is made
explicit: shuffles become a function parameter constrained to be a
permutation, and `rand.Intn(n)` becomes an arbitrary index reduced mod `n`.
Time is a `Nat` parameter; byte blobs are `List Nat`.
-/

/-- Decidable equality for `Except`, so that results of the modelled
operations can be compared by evaluation. -/
instance {ε α : Type} [DecidableEq ε] [DecidableEq α] :
    DecidableEq (Except ε α) := fun a b =>
  match a, b with
  | .ok x, .ok y =>
    if h : x = y then isTrue (by rw [h])
    else isFalse (by intro hc; cases hc; exact h rfl)
  | .error x, .error y =>
    if h : x = y then isTrue (by rw [h])
    else isFalse (by intro hc; cases hc; exact h rfl)
  | .ok _, .error _ => isFalse (by intro hc; cases hc)
  | .error _, .ok _ => isFalse (by intro hc; cases hc)

namespace PrAlloc

/-- PR status of the primary (K = 1) allocation domain:
`OPEN`, `MERGED`, `REJECTED`. -/
inductive PRStatus where
  | opened
  | merged
  | rejected
deriving DecidableEq, Repr

/-- A user row of the allocation service (`users` table).  The primary
service keys team membership by `TeamID`, the gateway compares `TeamName`;
both attributes are carried here. -/
structure User where
  userID : String
  username : String
  teamID : String
  teamName : String
  isActive : Bool
deriving DecidableEq, Repr

/-- A team row (`teams` table): name and id. -/
structure Team where
  teamID : String
  teamName : String
deriving DecidableEq, Repr

/-- A pull-request row of the primary (K = 1) allocation domain
(`pull_requests` table). -/
structure PullRequest where
  prID : String
  prName : String
  authorID : String
  status : PRStatus
  assignedReviewers : List String
  approvedBy : List String
  mergedAt : Option Nat
deriving DecidableEq, Repr

/-- Error kinds of the allocation service (`domain` errors of both
allocation profiles). -/
inductive AllocError where
  | notFound
  | prExists
  | prNotOpen
  | notAssigned
  | prMerged
  | prRejected
  | notAllApproved
  | noCandidate
  | teamExists
deriving DecidableEq, Repr

/-- The persistent state of the primary allocation service: the `teams`,
`users` and `pull_requests` tables. -/
structure AllocState where
  teams : List Team
  users : List User
  prs : List PullRequest
deriving DecidableEq, Repr

/-- `Storage.GetPR`: look a PR up by primary key `pull_request_id`. -/
def getPR (st : AllocState) (prID : String) : Option PullRequest :=
  st.prs.find? (fun p => p.prID = prID)

/-- `Storage.PRExists`: `SELECT EXISTS(... WHERE pull_request_id = $1)`. -/
def prExists (st : AllocState) (prID : String) : Bool :=
  st.prs.any (fun p => p.prID = prID)

/-- `Storage.UpdatePR`: `UPDATE pull_requests ... WHERE pull_request_id`,
replacing the row with matching primary key. -/
def updatePR (st : AllocState) (pr : PullRequest) : AllocState :=
  { st with prs := st.prs.map (fun p => if p.prID = pr.prID then pr else p) }

/-- `Storage.GetUser`: look a user up by primary key `user_id`. -/
def getUser (st : AllocState) (userID : String) : Option User :=
  st.users.find? (fun u => u.userID = userID)

/-- `Storage.GetUsersByTeamID`: all users whose `team_id` matches. -/
def getUsersByTeamID (st : AllocState) (teamID : String) : List User :=
  st.users.filter (fun u => u.teamID = teamID)

/-- `Service.allReviewersApproved` (K = 1 service): an empty reviewer list
is trivially approved, otherwise every assigned reviewer must appear in
`ApprovedBy`. -/
def allReviewersApproved (pr : PullRequest) : Bool :=
  if pr.assignedReviewers.isEmpty then true
  else pr.assignedReviewers.all (fun r => pr.approvedBy.contains r)

/-- `Service.selectReviewers` (identical in both allocation profiles):
filter the team members to the active non-authors, shuffle, and take the
first `min |candidates| maxCount`.  The uniform shuffle is passed in as the
function `shuffle`. -/
def selectReviewers (shuffle : List User → List User)
    (teamMembers : List User) (authorID : String) (maxCount : Nat) :
    List String :=
  let candidates := teamMembers.filter
    (fun m => m.isActive && m.userID ≠ authorID)
  if candidates.isEmpty then []
  else
    let count := min candidates.length maxCount
    ((shuffle candidates).take count).map (fun u => u.userID)

/-- `Service.CreatePR` of the allocation service.  The two profiles differ
only in the reviewer cap passed to `selectReviewers` (1 in the primary
service, 2 in the alternate profile), so the cap is the `maxCount`
argument.  `Storage.CreatePR` inserts the row with `status = OPEN`
(`internal/storage/postgres/postgres.go`). -/
def createPR (shuffle : List User → List User) (st : AllocState)
    (prID prName authorID : String) (maxCount : Nat) :
    Except AllocError (AllocState × PullRequest) :=
  if prExists st prID then .error .prExists
  else
    match getUser st authorID with
    | none => .error .notFound
    | some author =>
      if author.teamID = "" then .error .notFound
      else
        let teamMembers := getUsersByTeamID st author.teamID
        let reviewers := selectReviewers shuffle teamMembers author.userID maxCount
        let pr : PullRequest :=
          { prID := prID, prName := prName, authorID := authorID,
            status := .opened, assignedReviewers := reviewers,
            approvedBy := [], mergedAt := none }
        .ok ({ st with prs := st.prs ++ [pr] }, pr)

/-- `Service.MergePR` of the primary (K = 1) service: not-found, merged
idempotence, rejected, approval gate, then the `MERGED` transition
(`merged_at` is set only when it was previously `nil`). -/
def mergePR (st : AllocState) (prID : String) (now : Nat) :
    Except AllocError (AllocState × PullRequest) :=
  match getPR st prID with
  | none => .error .notFound
  | some pr =>
    if pr.status = .merged then .ok (st, pr)
    else if pr.status = .rejected then .error .prRejected
    else if ¬ allReviewersApproved pr then .error .notAllApproved
    else
      let pr' : PullRequest :=
        { pr with status := .merged,
                  mergedAt := match pr.mergedAt with
                              | none => some now
                              | some t => some t }
      .ok (updatePR st pr', pr')

/-- `Service.ApprovePR` of the primary (K = 1) service.  Returns the PR and
the `all_approved` flag; a repeated approval by the same reviewer returns
the current state without hitting storage. -/
def approvePR (st : AllocState) (prID reviewerID : String) :
    Except AllocError (AllocState × PullRequest × Bool) :=
  match getPR st prID with
  | none => .error .notFound
  | some pr =>
    if pr.status ≠ .opened then .error .prNotOpen
    else if ¬ pr.assignedReviewers.contains reviewerID then .error .notAssigned
    else if pr.approvedBy.contains reviewerID then
      .ok (st, pr, allReviewersApproved pr)
    else
      let pr' : PullRequest := { pr with approvedBy := pr.approvedBy ++ [reviewerID] }
      .ok (updatePR st pr', pr', allReviewersApproved pr')

/-- `Service.RejectPR` of the primary (K = 1) service: requires the PR to
be `OPEN` and the caller to be an assigned reviewer, then sets
`status := REJECTED`. -/
def rejectPR (st : AllocState) (prID reviewerID : String) :
    Except AllocError (AllocState × PullRequest) :=
  match getPR st prID with
  | none => .error .notFound
  | some pr =>
    if pr.status ≠ .opened then .error .prNotOpen
    else if ¬ pr.assignedReviewers.contains reviewerID then .error .notAssigned
    else
      let pr' : PullRequest := { pr with status := .rejected }
      .ok (updatePR st pr', pr')

/-- `Service.ReassignReviewer` of the primary (K = 1) service.  Only the
`MERGED` status is refused; the replacement is drawn from the old
reviewer's team, excluding the author and all current assignees, and is
substituted in place.  `rand.Intn |candidates|` is modelled by the
arbitrary index `pick` reduced mod the candidate count.  `ApprovedBy` is
not touched. -/
def reassignReviewer (st : AllocState) (prID oldUserID : String)
    (pick : Nat) : Except AllocError (String × AllocState × PullRequest) :=
  match getPR st prID with
  | none => .error .notFound
  | some pr =>
    if pr.status = .merged then .error .prMerged
    else
      match pr.assignedReviewers.findIdx? (fun rid => rid = oldUserID) with
      | none => .error .notAssigned
      | some oldIndex =>
        match getUser st oldUserID with
        | none => .error .notFound
        | some oldReviewer =>
          let teamMembers := getUsersByTeamID st oldReviewer.teamID
          let excludeIDs := pr.authorID :: pr.assignedReviewers
          let candidates := teamMembers.filter
            (fun m => m.isActive && ¬ excludeIDs.contains m.userID)
          if h : candidates.isEmpty then .error .noCandidate
          else
            let newReviewer := candidates.get
              ⟨pick % candidates.length, Nat.mod_lt _ (by
                cases hc : candidates with
                | nil => simp [hc] at h
                | cons a l => simp [hc])⟩
            let pr' : PullRequest :=
              { pr with assignedReviewers :=
                  pr.assignedReviewers.set oldIndex newReviewer.userID }
            .ok (newReviewer.userID, updatePR st pr', pr')

/-- `GetTeam`-side lookup of a team row by its unique `team_name`. -/
def getTeamByName (st : AllocState) (teamName : String) : Option Team :=
  st.teams.find? (fun t => t.teamName = teamName)

/-- One entry of the reassignment report returned by bulk deactivation. -/
structure PRReassignmentSummary where
  prID : String
  oldReviewers : List String
  newReviewers : List String
deriving DecidableEq, Repr

/-- The per-PR body of the loop inside `Service.BulkDeactivateTeamUsers`:
drop every deactivating reviewer, refill up to a target of 2 reviewers from
the author's team (excluding author, remaining assignees and deactivating
users), and persist.  `ApprovedBy` is never touched.  When the author
cannot be loaded the trimmed list is persisted and no report entry is
recorded, exactly as in the Go loop. -/
def bulkStep (shuffle : List User → List User) (userIDs : List String)
    (acc : AllocState × List PRReassignmentSummary) (pr : PullRequest) :
    AllocState × List PRReassignmentSummary :=
  let st := acc.1
  let newReviewers := pr.assignedReviewers.filter
    (fun r => ¬ userIDs.contains r)
  let needsReassignment := pr.assignedReviewers.any
    (fun r => userIDs.contains r)
  if ¬ needsReassignment then acc
  else
    match getUser st pr.authorID with
    | none =>
      (updatePR st { pr with assignedReviewers := newReviewers }, acc.2)
    | some author =>
      let teamMembers := getUsersByTeamID st author.teamID
      let excludeIDs := pr.authorID :: (newReviewers ++ userIDs)
      let candidates := teamMembers.filter
        (fun m => m.isActive && ¬ excludeIDs.contains m.userID)
      let needed := 2 - newReviewers.length
      let finalReviewers :=
        if needed > 0 ∧ ¬ candidates.isEmpty then
          newReviewers ++
            ((shuffle candidates).take (min candidates.length needed)).map
              (fun u => u.userID)
        else newReviewers
      let pr' : PullRequest := { pr with assignedReviewers := finalReviewers }
      (updatePR st pr',
       acc.2 ++ [{ prID := pr.prID, oldReviewers := pr.assignedReviewers,
                   newReviewers := finalReviewers }])

/-- `Service.BulkDeactivateTeamUsers` of the primary (K = 1) service.
`Storage.GetOpenPRsByReviewers` is modelled from the spec: all `OPEN` PRs
whose `assigned_reviewers` intersects the deactivating set (its SQL is not
among the sources).  After the per-PR loop, `Storage.BulkUpdateUsersActive`
clears `is_active` for every collected user. -/
def bulkDeactivateTeamUsers (shuffle : List User → List User)
    (st : AllocState) (teamName : String) :
    Except AllocError (AllocState × Nat × List PRReassignmentSummary) :=
  match getTeamByName st teamName with
  | none => .error .notFound
  | some team =>
    let members := getUsersByTeamID st team.teamID
    let userIDs := (members.filter (fun u => u.isActive)).map
      (fun u => u.userID)
    if userIDs.isEmpty then .ok (st, 0, [])
    else
      let openPRs := st.prs.filter
        (fun pr => pr.status = .opened &&
          pr.assignedReviewers.any (fun r => userIDs.contains r))
      let result := openPRs.foldl (bulkStep shuffle userIDs) (st, [])
      let deactivate := fun (u : User) =>
        if userIDs.contains u.userID then { u with isActive := false } else u
      let deactivated := { result.1 with users := result.1.users.map deactivate }
      .ok (deactivated, userIDs.length, result.2)

end PrAlloc

namespace PrAllocK2

open PrAlloc (User PRStatus AllocError)

/-- PR status of the alternate (K = 2) allocation profile
(`internal/domain/models.go`): only `OPEN` and `MERGED` exist; the profile
has no `REJECTED` status. -/
inductive PRStatus2 where
  | opened
  | merged
deriving DecidableEq, Repr

/-- A pull-request row of the alternate (K = 2) profile.  Note: the domain
has no `approved_by` field — this profile records no approvals at all. -/
structure PullRequest2 where
  prID : String
  prName : String
  authorID : String
  status : PRStatus2
  assignedReviewers : List String
  mergedAt : Option Nat
deriving DecidableEq, Repr

/-- State of the alternate (K = 2) profile.  Its `User` rows carry
`team_name` only; the shared `User` structure's `teamID` goes unused
here. -/
structure AllocState2 where
  users : List User
  prs : List PullRequest2
deriving DecidableEq, Repr

/-- `Storage.GetPR` of the alternate profile. -/
def getPR2 (st : AllocState2) (prID : String) : Option PullRequest2 :=
  st.prs.find? (fun p => p.prID = prID)

/-- `Storage.PRExists` of the alternate profile. -/
def prExists2 (st : AllocState2) (prID : String) : Bool :=
  st.prs.any (fun p => p.prID = prID)

/-- `Storage.UpdatePR` of the alternate profile. -/
def updatePR2 (st : AllocState2) (pr : PullRequest2) : AllocState2 :=
  { st with prs := st.prs.map (fun p => if p.prID = pr.prID then pr else p) }

/-- `Storage.GetUser` of the alternate profile. -/
def getUser2 (st : AllocState2) (userID : String) : Option User :=
  st.users.find? (fun u => u.userID = userID)

/-- `Storage.GetUsersByTeam` of the alternate profile: membership is keyed
by `team_name`. -/
def getUsersByTeam2 (st : AllocState2) (teamName : String) : List User :=
  st.users.filter (fun u => u.teamName = teamName)

/-- `Service.CreatePR` of the alternate (K = 2) profile
(`internal/service/service.go`): identical allocation logic with a
reviewer cap of 2, over the reduced PR domain. -/
def createPR2 (shuffle : List User → List User) (st : AllocState2)
    (prID prName authorID : String) :
    Except AllocError (AllocState2 × PullRequest2) :=
  if prExists2 st prID then .error .prExists
  else
    match getUser2 st authorID with
    | none => .error .notFound
    | some author =>
      if author.teamName = "" then .error .notFound
      else
        let teamMembers := getUsersByTeam2 st author.teamName
        let reviewers :=
          PrAlloc.selectReviewers shuffle teamMembers author.userID 2
        let pr : PullRequest2 :=
          { prID := prID, prName := prName, authorID := authorID,
            status := .opened, assignedReviewers := reviewers,
            mergedAt := none }
        .ok ({ st with prs := st.prs ++ [pr] }, pr)

/-- `Service.MergePR` of the alternate (K = 2) profile
(`internal/service/service.go` lines 110-132): after the not-found and
merged-idempotence checks it marks the PR `MERGED` unconditionally — there
is no rejected check and no approval gate in this profile. -/
def mergePR2 (st : AllocState2) (prID : String) (now : Nat) :
    Except AllocError (AllocState2 × PullRequest2) :=
  match getPR2 st prID with
  | none => .error .notFound
  | some pr =>
    if pr.status = .merged then .ok (st, pr)
    else
      let pr' : PullRequest2 :=
        { pr with status := .merged,
                  mergedAt := match pr.mergedAt with
                              | none => some now
                              | some t => some t }
      .ok (updatePR2 st pr', pr')

end PrAllocK2

namespace CodeStorage

/-- Error kinds of the code-storage service (domain errors in
`code-storage-service/internal/config/config.go`).  `internal` stands for
any error that the handler maps to `INTERNAL_ERROR` (e.g. a database
driver error wrapped by `fmt.Errorf`). -/
inductive StoreError where
  | teamNotFound
  | rootCommitNotFound
  | commitNotFound
  | invalidParent
  | commitNotLeaf
  | commitNameExists
  | internal
deriving DecidableEq, Repr

/-- A commit row (`commits` table).  `created_at` is never branched on and
is omitted; `code` is the opaque byte blob. -/
structure Commit where
  id : String
  teamID : String
  rootCommit : String
  parentCommitIDs : List String
  code : List Nat
deriving DecidableEq, Repr

/-- A row of the `commit_names` table:
`(team_id, root_commit, name) → commit_id`. -/
structure NameBinding where
  teamID : String
  rootCommit : String
  commitID : String
  name : String
deriving DecidableEq, Repr

/-- The persistent state of the storage service: `teams`, `commits` and
`commit_names`. -/
structure StoreState where
  teams : List String
  commits : List Commit
  names : List NameBinding
deriving DecidableEq, Repr

/-- `Storage.TeamExists`: `SELECT EXISTS(... FROM teams WHERE id = $1)`. -/
def teamExists (st : StoreState) (teamID : String) : Bool :=
  st.teams.contains teamID

/-- `Storage.GetCommit`: lookup by
`id = $1 AND team_id = $2 AND root_commit = $3`. -/
def getCommit (st : StoreState) (teamID rootCommit commitID : String) :
    Option Commit :=
  st.commits.find? (fun c =>
    c.id = commitID && c.teamID = teamID && c.rootCommit = rootCommit)

/-- `Storage.GetCommitCode`: the `code` column of the row selected by the
same `(id, team_id, root_commit)` key. -/
def getCommitCode (st : StoreState) (teamID rootCommit commitID : String) :
    Option (List Nat) :=
  match getCommit st teamID rootCommit commitID with
  | none => none
  | some c => some c.code

/-- `Storage.IsLeafCommit`: no commit in the `(team_id, root_commit)` scope
lists the commit among its `parent_commit_ids`. -/
def isLeafCommit (st : StoreState) (teamID rootCommit commitID : String) :
    Bool :=
  ! st.commits.any (fun c =>
    c.teamID = teamID && c.rootCommit = rootCommit &&
      c.parentCommitIDs.contains commitID)

/-- `Storage.RootCommitExists`: a commit with
`team_id = $1 AND id = $2 AND root_commit = $2`. -/
def rootCommitExists (st : StoreState) (teamID rootCommit : String) : Bool :=
  st.commits.any (fun c =>
    c.teamID = teamID && c.id = rootCommit && c.rootCommit = rootCommit)

/-- `Storage.SetCommitName`: a bare `INSERT INTO commit_names`.  Modelled
from the spec: the table's schema (migrations are not among the sources)
declares `PK(team_id, root_commit, name)` and `commit_id UNIQUE`, so the
insert fails on a duplicate scoped name or an already-named commit.  The Go
code wraps any such driver error generically (`failed to set commit name`),
so the violation surfaces as `internal`, never as `commitNameExists`. -/
def setCommitName (st : StoreState)
    (teamID rootCommit commitID name : String) :
    Except StoreError StoreState :=
  if st.names.any (fun b =>
      b.teamID = teamID && b.rootCommit = rootCommit && b.name = name) then
    .error .internal
  else if st.names.any (fun b => b.commitID = commitID) then
    .error .internal
  else
    .ok { st with names := st.names ++
            [{ teamID := teamID, rootCommit := rootCommit,
               commitID := commitID, name := name }] }

/-- `Storage.InitRepository`: inserts the root commit (its own id as
`root_commit`, empty parents), then — in a separate statement, with no
transaction — binds the optional name.  The post-state is returned even on
error: a failing name binding leaves the freshly inserted commit in the
database. -/
def storInitRepository (st : StoreState) (teamID commitName : String)
    (code : List Nat) (newID : String) :
    StoreState × Except StoreError Commit :=
  let commit : Commit :=
    { id := newID, teamID := teamID, rootCommit := newID,
      parentCommitIDs := [], code := code }
  let st1 := { st with commits := st.commits ++ [commit] }
  if commitName = "" then (st1, .ok commit)
  else
    match setCommitName st1 teamID newID newID commitName with
    | .error e => (st1, .error e)
    | .ok st2 => (st2, .ok commit)

/-- `Storage.CreateCommit`: inserts a commit with a single parent, then —
again in a separate, non-transactional statement — binds the optional
name; the insert survives a failing binding. -/
def storCreateCommit (st : StoreState)
    (teamID rootCommit parentID commitName : String) (code : List Nat)
    (newID : String) : StoreState × Except StoreError Commit :=
  let commit : Commit :=
    { id := newID, teamID := teamID, rootCommit := rootCommit,
      parentCommitIDs := [parentID], code := code }
  let st1 := { st with commits := st.commits ++ [commit] }
  if commitName = "" then (st1, .ok commit)
  else
    match setCommitName st1 teamID rootCommit newID commitName with
    | .error e => (st1, .error e)
    | .ok st2 => (st2, .ok commit)

/-- `Storage.MergeCommits`: reads the first parent's code and inserts a
commit with parents `[commitID1, commitID2]` carrying that code
verbatim. -/
def storMergeCommits (st : StoreState)
    (teamID rootCommit commitID1 commitID2 : String) (newID : String) :
    StoreState × Except StoreError Commit :=
  match getCommitCode st teamID rootCommit commitID1 with
  | none => (st, .error .commitNotFound)
  | some code =>
    let commit : Commit :=
      { id := newID, teamID := teamID, rootCommit := rootCommit,
        parentCommitIDs := [commitID1, commitID2], code := code }
    ({ st with commits := st.commits ++ [commit] }, .ok commit)

/-- `Service.InitRepository` (`unnamed/part_003`): team check, then the
storage insert. -/
def svcInitRepository (st : StoreState) (teamID commitName : String)
    (code : List Nat) (newID : String) :
    StoreState × Except StoreError Commit :=
  if ¬ teamExists st teamID then (st, .error .teamNotFound)
  else storInitRepository st teamID commitName code newID

/-- `Service.Push` (`unnamed/part_003`): team, root and parent checks
(`INVALID_PARENT` when the parent is missing in the scope), then the
storage insert with its optional name binding. -/
def svcPush (st : StoreState)
    (teamID rootCommit parentCommitID commitName : String)
    (code : List Nat) (newID : String) :
    StoreState × Except StoreError Commit :=
  if ¬ teamExists st teamID then (st, .error .teamNotFound)
  else if ¬ rootCommitExists st teamID rootCommit then
    (st, .error .rootCommitNotFound)
  else if (getCommit st teamID rootCommit parentCommitID).isNone then
    (st, .error .invalidParent)
  else storCreateCommit st teamID rootCommit parentCommitID commitName code newID

/-- `Service.Merge` (`unnamed/part_003` lines 145-221): team and root
checks, existence of both commits, both-leaves check (`COMMIT_NOT_LEAF`),
then `Storage.MergeCommits`. -/
def svcMerge (st : StoreState)
    (teamID rootCommit commitID1 commitID2 : String) (newID : String) :
    StoreState × Except StoreError Commit :=
  if ¬ teamExists st teamID then (st, .error .teamNotFound)
  else if ¬ rootCommitExists st teamID rootCommit then
    (st, .error .rootCommitNotFound)
  else if (getCommit st teamID rootCommit commitID1).isNone then
    (st, .error .commitNotFound)
  else if (getCommit st teamID rootCommit commitID2).isNone then
    (st, .error .commitNotFound)
  else if ¬ isLeafCommit st teamID rootCommit commitID1 then
    (st, .error .commitNotLeaf)
  else if ¬ isLeafCommit st teamID rootCommit commitID2 then
    (st, .error .commitNotLeaf)
  else storMergeCommits st teamID rootCommit commitID1 commitID2 newID

end CodeStorage

namespace Gateway

/-- The gateway's process-local PR metadata
(`user-gateway-service/internal/service/service.go`), stored under both
the `team_name:pr_name` key and the `pr_id` key. -/
structure PRMetadata where
  prName : String
  teamName : String
  repoName : String
  teamID : String
  rootCommit : String
  sourceCommit : String
  sourceCommitName : String
  targetCommit : String
  targetCommitName : String
deriving DecidableEq, Repr

/-- The composed system state seen by the gateway: the allocation backend,
the storage backend, and the in-process metadata map. -/
structure GatewayState where
  alloc : PrAlloc.AllocState
  store : CodeStorage.StoreState
  prMetadata : List (String × PRMetadata)
deriving DecidableEq, Repr

/-- Gateway error kinds; backend failures are carried with their kind
(the Go wraps them in `fmt.Errorf` without remapping). -/
inductive GwError where
  | prNotFound
  | userNotFound
  | userInactive
  | accessDenied
  | allocFailed (e : PrAlloc.AllocError)
  | storeFailed (e : CodeStorage.StoreError)
deriving DecidableEq, Repr

/-- Metadata-map lookup by key. -/
def lookupMeta (g : GatewayState) (key : String) : Option PRMetadata :=
  (g.prMetadata.find? (fun kv => kv.1 = key)).map (fun kv => kv.2)

/-- `Service.verifyUserAccess`: user must exist, be active, and belong to
the requested team. -/
def verifyUserAccess (st : PrAlloc.AllocState) (username teamName : String) :
    Option GwError :=
  match PrAlloc.getUser st username with
  | none => some .userNotFound
  | some user =>
    if ¬ user.isActive then some .userInactive
    else if user.teamName ≠ teamName then some .accessDenied
    else none

/-- `strings.HasPrefix`, computed on the character lists. -/
def strHasPrefix (s p : String) : Bool :=
  p.data.isPrefixOf s.data

/-- The scan over `prMetadata` that recovers the `pr_id` key: the entry
holding the same metadata record whose key starts with `pr-`. -/
def findPRID (g : GatewayState) (meta : PRMetadata) : Option String :=
  (g.prMetadata.find? (fun kv =>
    kv.2 = meta && strHasPrefix kv.1 "pr-")).map (fun kv => kv.1)

/-- `Service.ApprovePR` of the gateway (lines 536-630): metadata lookup,
authorization, `pr_id` recovery, `Allocation.ApprovePR`; if not all
approved, return the PR with no merge commit (storage untouched);
otherwise `Storage.Merge(team_id, root, source, target)` first, then
`Allocation.MergePR`, returning the updated PR together with the merge
commit.  The wire response copies the allocation PR's fields plus the
metadata names; the model returns the allocation PR and the commit. -/
def gatewayApprovePR (g : GatewayState)
    (username teamName prName : String) (newCommitID : String) (now : Nat) :
    GatewayState × Except GwError (PrAlloc.PullRequest × Option CodeStorage.Commit) :=
  match lookupMeta g (teamName ++ ":" ++ prName) with
  | none => (g, .error .prNotFound)
  | some meta =>
    match verifyUserAccess g.alloc username teamName with
    | some e => (g, .error e)
    | none =>
      match findPRID g meta with
      | none => (g, .error .prNotFound)
      | some prID =>
        match PrAlloc.approvePR g.alloc prID username with
        | .error e => (g, .error (.allocFailed e))
        | .ok (alloc1, pr, allApproved) =>
          if allApproved then
            match CodeStorage.svcMerge g.store meta.teamID meta.rootCommit
                meta.sourceCommit meta.targetCommit newCommitID with
            | (store1, .error e) =>
              ({ g with alloc := alloc1, store := store1 },
               .error (.storeFailed e))
            | (store1, .ok mergeCommit) =>
              match PrAlloc.mergePR alloc1 prID now with
              | .error e =>
                ({ g with alloc := alloc1, store := store1 },
                 .error (.allocFailed e))
              | .ok (alloc2, pr2) =>
                ({ g with alloc := alloc2, store := store1 },
                 .ok (pr2, some mergeCommit))
          else
            ({ g with alloc := alloc1 }, .ok (pr, none))

end Gateway

/-! ## Concrete fixtures

Small states used to evaluate the operations at explicit inputs. -/

namespace Fix

open PrAlloc PrAllocK2 CodeStorage Gateway

/-- Team `alpha`. -/
def teamAlpha : Team := { teamID := "t1", teamName := "alpha" }

/-- Active member `u1` of team `alpha` (PR author in the fixtures). -/
def uAlice : User :=
  { userID := "u1", username := "Alice", teamID := "t1",
    teamName := "alpha", isActive := true }

/-- Active member `u2` of team `alpha` (assigned reviewer). -/
def uBob : User :=
  { userID := "u2", username := "Bob", teamID := "t1",
    teamName := "alpha", isActive := true }

/-- Active member `u3` of team `alpha` (replacement candidate). -/
def uCarol : User :=
  { userID := "u3", username := "Carol", teamID := "t1",
    teamName := "alpha", isActive := true }

/-- An `OPEN` PR whose sole assigned reviewer `u2` has already approved. -/
def prOpenApproved : PullRequest :=
  { prID := "pr1", prName := "feature", authorID := "u1",
    status := .opened, assignedReviewers := ["u2"],
    approvedBy := ["u2"], mergedAt := none }

/-- An `OPEN` PR assigned to `u2` with no approvals yet. -/
def prOpenUnapproved : PullRequest :=
  { prID := "pr1", prName := "feature", authorID := "u1",
    status := .opened, assignedReviewers := ["u2"],
    approvedBy := [], mergedAt := none }

/-- A `REJECTED` PR assigned to `u2`. -/
def prRejectedFix : PullRequest :=
  { prID := "pr2", prName := "bugfix", authorID := "u1",
    status := .rejected, assignedReviewers := ["u2"],
    approvedBy := [], mergedAt := none }

/-- A `MERGED` PR. -/
def prMergedFix : PullRequest :=
  { prID := "pr3", prName := "hotfix", authorID := "u1",
    status := .merged, assignedReviewers := ["u2"],
    approvedBy := ["u2"], mergedAt := some 3 }

/-- Allocation state holding `prOpenApproved`. -/
def stOpenApproved : AllocState :=
  { teams := [teamAlpha], users := [uAlice, uBob, uCarol],
    prs := [prOpenApproved] }

/-- Allocation state holding `prOpenUnapproved`. -/
def stOpenUnapproved : AllocState :=
  { teams := [teamAlpha], users := [uAlice, uBob, uCarol],
    prs := [prOpenUnapproved] }

/-- Allocation state holding `prRejectedFix`. -/
def stRejected : AllocState :=
  { teams := [teamAlpha], users := [uAlice, uBob, uCarol],
    prs := [prRejectedFix] }

/-- Allocation state holding `prMergedFix`. -/
def stMerged : AllocState :=
  { teams := [teamAlpha], users := [uAlice, uBob, uCarol],
    prs := [prMergedFix] }

/-- Alternate-profile PR: `OPEN`, assigned reviewer `u2` (the profile
records no approvals). -/
def pr2OpenFix : PullRequest2 :=
  { prID := "pr1", prName := "feature", authorID := "u1",
    status := .opened, assignedReviewers := ["u2"], mergedAt := none }

/-- Alternate-profile state holding `pr2OpenFix`. -/
def st2Open : AllocState2 :=
  { users := [uAlice, uBob], prs := [pr2OpenFix] }

/-- `pr2OpenFix` after the alternate profile's unconditional merge at
time 7. -/
def pr2MergedFix : PullRequest2 :=
  { pr2OpenFix with status := .merged, mergedAt := some 7 }

/-- Root commit `r0` of team `t1`. -/
def cRoot : Commit :=
  { id := "r0", teamID := "t1", rootCommit := "r0",
    parentCommitIDs := [], code := [0] }

/-- Leaf commit `c1` (child of the root). -/
def cOne : Commit :=
  { id := "c1", teamID := "t1", rootCommit := "r0",
    parentCommitIDs := ["r0"], code := [1] }

/-- Leaf commit `c2` (second child of the root). -/
def cTwo : Commit :=
  { id := "c2", teamID := "t1", rootCommit := "r0",
    parentCommitIDs := ["r0"], code := [2] }

/-- Storage state: team `t1`, the three commits, and the name `main`
bound to the root. -/
def storeEx : StoreState :=
  { teams := ["t1"], commits := [cRoot, cOne, cTwo],
    names := [{ teamID := "t1", rootCommit := "r0", commitID := "r0",
                name := "main" }] }

/-- Gateway metadata for PR `feature` of team `alpha`. -/
def metaEx : PRMetadata :=
  { prName := "feature", teamName := "alpha", repoName := "svc",
    teamID := "t1", rootCommit := "r0", sourceCommit := "c1",
    sourceCommitName := "feat", targetCommit := "c2",
    targetCommitName := "main" }

/-- Allocation-side PR under the gateway-synthesised id `pr-1`, with the
single assigned reviewer `u2`. -/
def prGwOne : PullRequest :=
  { prID := "pr-1", prName := "feature", authorID := "u1",
    status := .opened, assignedReviewers := ["u2"],
    approvedBy := [], mergedAt := none }

/-- Same PR but with two assigned reviewers, so that a single approval
leaves `all_approved = false`. -/
def prGwTwo : PullRequest :=
  { prID := "pr-1", prName := "feature", authorID := "u1",
    status := .opened, assignedReviewers := ["u2", "u3"],
    approvedBy := [], mergedAt := none }

/-- Gateway state where `u2`'s approval completes the reviewer set. -/
def gwOne : GatewayState :=
  { alloc := { teams := [teamAlpha], users := [uAlice, uBob, uCarol],
               prs := [prGwOne] },
    store := storeEx,
    prMetadata := [("alpha:feature", metaEx), ("pr-1", metaEx)] }

/-- Gateway state where `u2`'s approval leaves `u3` still pending. -/
def gwTwo : GatewayState :=
  { alloc := { teams := [teamAlpha], users := [uAlice, uBob, uCarol],
               prs := [prGwTwo] },
    store := storeEx,
    prMetadata := [("alpha:feature", metaEx), ("pr-1", metaEx)] }

/-- `prOpenApproved` after reassigning `u2` to `u3` (approval kept). -/
def prApprReassigned : PullRequest :=
  { prOpenApproved with assignedReviewers := ["u3"] }

/-- `prRejectedFix` after reassigning `u2` to `u3`. -/
def prRejReassigned : PullRequest :=
  { prRejectedFix with assignedReviewers := ["u3"] }

/-- `uAlice` deactivated. -/
def uAliceOff : User := { uAlice with isActive := false }

/-- `uBob` deactivated. -/
def uBobOff : User := { uBob with isActive := false }

/-- `uCarol` deactivated. -/
def uCarolOff : User := { uCarol with isActive := false }

/-- The state produced by bulk-deactivating team `alpha` over
`stOpenApproved`: the sole open PR loses its reviewer (no candidate
remains) while keeping its approval, and every member is deactivated. -/
def bulkStateFix : AllocState :=
  { teams := [teamAlpha], users := [uAliceOff, uBobOff, uCarolOff],
    prs := [{ prOpenApproved with assignedReviewers := [] }] }

/-- The reassignment report of that bulk deactivation. -/
def bulkReportFix : List PRReassignmentSummary :=
  [{ prID := "pr1", oldReviewers := ["u2"], newReviewers := [] }]

/-- The commit inserted by the failing named push in the C4 scenario. -/
def pushedCommitFix : Commit :=
  { id := "c9", teamID := "t1", rootCommit := "r0",
    parentCommitIDs := ["r0"], code := [9] }

/-- The merge commit of `c1` and `c2` (code taken from `c1`). -/
def mergeCommitFix : Commit :=
  { id := "m1", teamID := "t1", rootCommit := "r0",
    parentCommitIDs := ["c1", "c2"], code := [1] }

/-- `storeEx` after the `c1`/`c2` merge. -/
def storeExMerged : StoreState :=
  { storeEx with commits := storeEx.commits ++ [mergeCommitFix] }

/-- The self-merge commit of `c1` with itself. -/
def selfMergeCommitFix : Commit :=
  { id := "m2", teamID := "t1", rootCommit := "r0",
    parentCommitIDs := ["c1", "c1"], code := [1] }

/-- `prGwOne` after `u2`'s approval. -/
def prGwOneApproved : PullRequest :=
  { prGwOne with approvedBy := ["u2"] }

/-- `prGwOneApproved` after the allocation-side merge at time 9. -/
def prGwOneMerged : PullRequest :=
  { prGwOneApproved with status := .merged, mergedAt := some 9 }

/-- `prGwTwo` after `u2`'s approval (still short of `u3`). -/
def prGwTwoApproved : PullRequest :=
  { prGwTwo with approvedBy := ["u2"] }

end Fix

namespace PrAlloc

/-- `approvalsPreservedFrom st₀ st`: every PR row of `st` has, in `st₀`, a
row with the same id and the same `approved_by`.  Used to state that an
operation never mutates approvals. -/
def approvalsPreservedFrom (st₀ st : AllocState) : Prop :=
  ∀ p' ∈ st.prs, ∃ p ∈ st₀.prs, p.prID = p'.prID ∧ p'.approvedBy = p.approvedBy

end PrAlloc

/-! ## Theorems -/

namespace PrAlloc

/-- The `all_approved` computation agrees with list-level containment of
the assigned reviewers in `approved_by` (an empty assigned list is
trivially contained). -/
theorem allReviewersApproved_iff (pr : PullRequest) :
    allReviewersApproved pr = true ↔
      ∀ r ∈ pr.assignedReviewers, r ∈ pr.approvedBy := by
  unfold allReviewersApproved
  split
  case isTrue h =>
    simp only [List.isEmpty_iff] at h
    simp [h]
  case isFalse h =>
    simp only [List.all_eq_true]
    constructor
    · intro hall r hr
      exact List.elem_iff.mp (hall r hr)
    · intro hall r hr
      exact List.elem_iff.mpr (hall r hr)

end PrAlloc

open PrAlloc PrAllocK2 CodeStorage Gateway in
/-- **C1 (amended).**  In the primary (K = 1) allocation service `MergePR`
behaves exactly as specified: `NOT_FOUND` on a missing PR, idempotent
return of the current state on a `MERGED` PR, `PR_REJECTED` on a
`REJECTED` PR, `NOT_ALL_APPROVED` when some assigned reviewer has not
approved, and otherwise the `OPEN → MERGED` transition with
`approved_by ⊇ assigned_reviewers` holding at the moment of the
transition.  In the alternate (K = 2) profile `MergePR` performs only the
not-found and merged-idempotence checks and then marks the PR `MERGED`
unconditionally — that profile tracks no approvals and has no rejected
status, so the merge gate does not hold there. -/
theorem c1_mergePR_gate :
    (∀ st prID now, getPR st prID = none →
       mergePR st prID now = .error .notFound) ∧
    (∀ st prID now pr, getPR st prID = some pr →
       (pr.status = .merged → mergePR st prID now = .ok (st, pr)) ∧
       (pr.status = .rejected → mergePR st prID now = .error .prRejected) ∧
       (pr.status = .opened →
          (∃ r ∈ pr.assignedReviewers, r ∉ pr.approvedBy) →
          mergePR st prID now = .error .notAllApproved) ∧
       (pr.status = .opened →
          (∀ r ∈ pr.assignedReviewers, r ∈ pr.approvedBy) →
          ∃ pr', mergePR st prID now = .ok (updatePR st pr', pr') ∧
            pr'.status = .merged ∧
            pr'.assignedReviewers = pr.assignedReviewers ∧
            pr'.approvedBy = pr.approvedBy ∧
            ∀ r ∈ pr'.assignedReviewers, r ∈ pr'.approvedBy)) ∧
    (∀ st prID now, getPR2 st prID = none →
       mergePR2 st prID now = .error .notFound) ∧
    (∀ st prID now pr, getPR2 st prID = some pr →
       (pr.status = .merged → mergePR2 st prID now = .ok (st, pr)) ∧
       (pr.status = .opened →
          ∃ pr', mergePR2 st prID now = .ok (updatePR2 st pr', pr') ∧
            pr'.status = .merged ∧
            pr'.assignedReviewers = pr.assignedReviewers)) := by
  refine ⟨?_, ?_, ?_, ?_⟩
  · intro st prID now h
    simp [mergePR, h]
  · intro st prID now pr h
    refine ⟨?_, ?_, ?_, ?_⟩
    · intro hm
      simp [mergePR, h, hm]
    · intro hr
      simp [mergePR, h, hr]
    · intro ho hex
      have hfalse : allReviewersApproved pr = false := by
        rw [Bool.eq_false_iff]
        intro htrue
        obtain ⟨r, hr, hnot⟩ := hex
        exact hnot ((allReviewersApproved_iff pr).mp htrue r hr)
      simp [mergePR, h, ho, hfalse]
    · intro ho hall
      have htrue : allReviewersApproved pr = true :=
        (allReviewersApproved_iff pr).mpr hall
      refine ⟨{ pr with
                status := .merged,
                mergedAt := match pr.mergedAt with
                            | none => some now
                            | some t => some t }, ?_, rfl, rfl, rfl, hall⟩
      simp [mergePR, h, ho, htrue]
  · intro st prID now h
    simp [mergePR2, h]
  · intro st prID now pr h
    refine ⟨?_, ?_⟩
    · intro hm
      simp [mergePR2, h, hm]
    · intro ho
      refine ⟨{ pr with
                status := .merged,
                mergedAt := match pr.mergedAt with
                            | none => some now
                            | some t => some t }, ?_, rfl, rfl⟩
      simp [mergePR2, h, ho]

open PrAllocK2 in
/-- **C1 (counterexample).**  In the alternate (K = 2) profile present in
the source, the `OPEN` PR `pr1` has assigned reviewer `u2` and — the
profile records no approvals at all — `MergePR` succeeds and marks it
`MERGED` instead of failing with `NOT_ALL_APPROVED` as the claim demands
for both profiles. -/
theorem c1_counterexample :
    getPR2 Fix.st2Open "pr1" = some Fix.pr2OpenFix ∧
    Fix.pr2OpenFix.status = .opened ∧
    Fix.pr2OpenFix.assignedReviewers = ["u2"] ∧
    mergePR2 Fix.st2Open "pr1" 7 ≠ .error .notAllApproved ∧
    ∃ st' pr', mergePR2 Fix.st2Open "pr1" 7 = .ok (st', pr') ∧
      pr'.status = .merged := by
  have hok : mergePR2 Fix.st2Open "pr1" 7 =
      .ok (updatePR2 Fix.st2Open Fix.pr2MergedFix, Fix.pr2MergedFix) := rfl
  refine ⟨rfl, rfl, rfl, ?_, ?_⟩
  · intro hcontra
    rw [hok] at hcontra
    exact Except.noConfusion hcontra
  · exact ⟨updatePR2 Fix.st2Open Fix.pr2MergedFix, Fix.pr2MergedFix, hok, rfl⟩

open PrAlloc PrAllocK2 in
/-- **C1 (witness).**  The amended theorem evaluated at concrete states:
a rejected PR yields `PR_REJECTED`, an unapproved open PR yields
`NOT_ALL_APPROVED`, a merged PR is returned unchanged (K = 1), and the
K = 2 profile merges an open PR unconditionally. -/
theorem c1_witness :
    mergePR Fix.stRejected "pr2" 7 = .error .prRejected ∧
    mergePR Fix.stOpenUnapproved "pr1" 7 = .error .notAllApproved ∧
    mergePR Fix.stMerged "pr3" 7 = .ok (Fix.stMerged, Fix.prMergedFix) ∧
    ∃ pr', mergePR2 Fix.st2Open "pr1" 7 =
        .ok (updatePR2 Fix.st2Open pr', pr') ∧
      pr'.status = .merged ∧
      pr'.assignedReviewers = Fix.pr2OpenFix.assignedReviewers := by
  refine ⟨?_, ?_, ?_, ?_⟩
  · exact (c1_mergePR_gate.2.1 Fix.stRejected "pr2" 7 Fix.prRejectedFix
      (by decide)).2.1 rfl
  · exact (c1_mergePR_gate.2.1 Fix.stOpenUnapproved "pr1" 7
      Fix.prOpenUnapproved (by decide)).2.2.1 rfl
      ⟨"u2", by decide, by decide⟩
  · exact (c1_mergePR_gate.2.1 Fix.stMerged "pr3" 7 Fix.prMergedFix
      (by decide)).1 rfl
  · exact (c1_mergePR_gate.2.2.2 Fix.st2Open "pr1" 7 Fix.pr2OpenFix
      (by decide)).2 rfl

open PrAlloc in
/-- **C7.**  ApprovePR is idempotent per reviewer: on an `OPEN` PR, a
reviewer already in `approved_by` gets the current state back unchanged
(storage untouched), a first approval appends exactly that reviewer, and
in both cases `all_approved` is computed as
`assigned_reviewers ⊆ approved_by`. -/
theorem c7_approve_idempotent (st : AllocState) (prID rid : String)
    (pr : PullRequest) (h : getPR st prID = some pr)
    (ho : pr.status = .opened) (ha : rid ∈ pr.assignedReviewers) :
    (rid ∈ pr.approvedBy →
       approvePR st prID rid = .ok (st, pr, allReviewersApproved pr) ∧
       (allReviewersApproved pr = true ↔
         ∀ r ∈ pr.assignedReviewers, r ∈ pr.approvedBy)) ∧
    (rid ∉ pr.approvedBy →
       approvePR st prID rid =
         .ok (updatePR st { pr with approvedBy := pr.approvedBy ++ [rid] },
              { pr with approvedBy := pr.approvedBy ++ [rid] },
              allReviewersApproved
                { pr with approvedBy := pr.approvedBy ++ [rid] }) ∧
       (allReviewersApproved { pr with approvedBy := pr.approvedBy ++ [rid] }
          = true ↔
         ∀ r ∈ pr.assignedReviewers, r ∈ pr.approvedBy ++ [rid])) := by
  have hc : pr.assignedReviewers.contains rid = true := List.elem_iff.mpr ha
  constructor
  · intro hin
    exact ⟨by simp [approvePR, h, ho, ha, hin], allReviewersApproved_iff pr⟩
  · intro hnot
    exact ⟨by simp [approvePR, h, ho, ha, hnot],
           allReviewersApproved_iff { pr with approvedBy := pr.approvedBy ++ [rid] }⟩

open PrAlloc in
/-- **C7 (witness).**  Re-approval by `u2` on a PR it already approved
returns the unchanged state with `all_approved = true`; the first approval
on the unapproved twin appends `u2`. -/
theorem c7_witness :
    approvePR Fix.stOpenApproved "pr1" "u2" =
      .ok (Fix.stOpenApproved, Fix.prOpenApproved, true) ∧
    approvePR Fix.stOpenUnapproved "pr1" "u2" =
      .ok (updatePR Fix.stOpenUnapproved
             { Fix.prOpenUnapproved with approvedBy := [] ++ ["u2"] },
           { Fix.prOpenUnapproved with approvedBy := [] ++ ["u2"] }, true) := by
  constructor
  · have h := (c7_approve_idempotent Fix.stOpenApproved "pr1" "u2"
      Fix.prOpenApproved rfl rfl (by decide)).1 (by decide)
    exact h.1.trans (by decide)
  · have h := (c7_approve_idempotent Fix.stOpenUnapproved "pr1" "u2"
      Fix.prOpenUnapproved rfl rfl (by decide)).2 (by decide)
    exact h.1.trans (by decide)

open PrAlloc in
/-- **C8 (counterexample).**  Rejecting the already-`REJECTED` PR `pr2`
(by its assigned reviewer `u2`) is not a no-op returning the current
state: it fails with `PR_NOT_OPEN`. -/
theorem c8_counterexample :
    getPR Fix.stRejected "pr2" = some Fix.prRejectedFix ∧
    Fix.prRejectedFix.status = .rejected ∧
    "u2" ∈ Fix.prRejectedFix.assignedReviewers ∧
    rejectPR Fix.stRejected "pr2" "u2" = .error .prNotOpen :=
  ⟨rfl, rfl, by decide, by decide⟩

open PrAlloc in
/-- **C8 (amended).**  RejectPR on any PR that is not `OPEN` — including
an already-`REJECTED` one — fails with `PR_NOT_OPEN` and changes nothing;
the reject endpoint is therefore not idempotent for client retry. -/
theorem c8_reject_not_open (st : AllocState) (prID rid : String)
    (pr : PullRequest) (h : getPR st prID = some pr)
    (hno : pr.status ≠ .opened) :
    rejectPR st prID rid = .error .prNotOpen := by
  simp [rejectPR, h, hno]

open PrAlloc in
/-- **C8 (witness).**  Rejecting the merged PR `pr3` fails with
`PR_NOT_OPEN`. -/
theorem c8_witness :
    rejectPR Fix.stMerged "pr3" "u2" = .error .prNotOpen :=
  c8_reject_not_open Fix.stMerged "pr3" "u2" Fix.prMergedFix rfl (by decide)

open PrAlloc in
/-- **C9 (counterexample).**  ReassignReviewer succeeds on the `REJECTED`
PR `pr2`, replacing `u2` by `u3`: a terminal-but-not-merged PR does not
make reassignment fail, contrary to the claim. -/
theorem c9_counterexample :
    Fix.prRejectedFix.status = .rejected ∧
    reassignReviewer Fix.stRejected "pr2" "u2" 0 =
      .ok ("u3", updatePR Fix.stRejected Fix.prRejReassigned,
           Fix.prRejReassigned) ∧
    Fix.prRejReassigned.assignedReviewers ≠
      Fix.prRejectedFix.assignedReviewers :=
  ⟨rfl, by decide, by decide⟩

open PrAlloc in
/-- **C9 (amended).**  Only the `MERGED` status blocks reassignment: on a
merged PR ReassignReviewer fails with `PR_MERGED` (leaving the PR
untouched), while a `REJECTED` PR is processed like an `OPEN` one. -/
theorem c9_reassign_blocks_merged_only (st : AllocState)
    (prID old : String) (pick : Nat) (pr : PullRequest)
    (h : getPR st prID = some pr) (hm : pr.status = .merged) :
    reassignReviewer st prID old pick = .error .prMerged := by
  simp [reassignReviewer, h, hm]

open PrAlloc in
/-- **C9 (witness).**  Reassigning on the merged PR `pr3` fails with
`PR_MERGED`. -/
theorem c9_witness :
    reassignReviewer Fix.stMerged "pr3" "u2" 0 = .error .prMerged :=
  c9_reassign_blocks_merged_only Fix.stMerged "pr3" "u2" 0 Fix.prMergedFix
    rfl rfl


namespace PrAlloc

/-- Membership in the PR table after a row update: either the updated row
or an untouched pre-existing row. -/
theorem mem_updatePR (st : AllocState) (pr p' : PullRequest)
    (h : p' ∈ (updatePR st pr).prs) : p' = pr ∨ p' ∈ st.prs := by
  simp only [updatePR, List.mem_map] at h
  obtain ⟨p, hp, he⟩ := h
  by_cases hid : p.prID = pr.prID
  · rw [if_pos hid] at he
    exact Or.inl he.symm
  · rw [if_neg hid] at he
    exact Or.inr (he ▸ hp)

/-- Updating a row whose `approved_by` matches a row of the reference
state preserves `approvalsPreservedFrom`. -/
theorem approvalsPreserved_update (st₀ st : AllocState)
    (pr pr' : PullRequest) (hrel : approvalsPreservedFrom st₀ st)
    (hpr : pr ∈ st₀.prs) (hid : pr'.prID = pr.prID)
    (happ : pr'.approvedBy = pr.approvedBy) :
    approvalsPreservedFrom st₀ (updatePR st pr') := by
  intro q hq
  rcases mem_updatePR st pr' q hq with hq1 | hq2
  · exact ⟨pr, hpr, by rw [hq1, hid], by rw [hq1, happ]⟩
  · exact hrel q hq2

/-- One step of the bulk-deactivation loop never touches `approved_by`. -/
theorem bulkStep_preserves (shuffle : List User → List User)
    (userIDs : List String) (st₀ : AllocState)
    (acc : AllocState × List PRReassignmentSummary) (pr : PullRequest)
    (hpr : pr ∈ st₀.prs) (hrel : approvalsPreservedFrom st₀ acc.1) :
    approvalsPreservedFrom st₀ (bulkStep shuffle userIDs acc pr).1 := by
  simp only [bulkStep]
  split
  · exact hrel
  · cases hgu : getUser acc.1 pr.authorID with
    | none =>
      simp only [hgu]
      exact approvalsPreserved_update st₀ acc.1 pr _ hrel hpr rfl rfl
    | some author =>
      simp only [hgu]
      exact approvalsPreserved_update st₀ acc.1 pr _ hrel hpr rfl rfl

/-- The whole bulk-deactivation loop never touches `approved_by`. -/
theorem foldl_bulkStep_preserves (shuffle : List User → List User)
    (userIDs : List String) (st₀ : AllocState) :
    ∀ (l : List PullRequest), (∀ pr ∈ l, pr ∈ st₀.prs) →
    ∀ acc : AllocState × List PRReassignmentSummary,
    approvalsPreservedFrom st₀ acc.1 →
    approvalsPreservedFrom st₀
      ((l.foldl (bulkStep shuffle userIDs) acc).1) := by
  intro l
  induction l with
  | nil =>
    intro _ acc h
    exact h
  | cons a t ih =>
    intro hl acc h
    simp only [List.foldl_cons]
    exact ih (fun pr hpr => hl pr (List.mem_cons_of_mem a hpr)) _
      (bulkStep_preserves shuffle userIDs st₀ acc a
        (hl a (List.mem_cons_self a t)) h)

end PrAlloc

open PrAlloc in
/-- **C3 (counterexample).**  Reassigning `u2` away from the open PR `pr1`
that `u2` had already approved leaves `u2`'s approval in `approved_by`
while removing `u2` from `assigned_reviewers` — the prior approval is not
removed and `approved_by ⊆ assigned_reviewers` is violated. -/
theorem c3_counterexample :
    reassignReviewer Fix.stOpenApproved "pr1" "u2" 0 =
      .ok ("u3", updatePR Fix.stOpenApproved Fix.prApprReassigned,
           Fix.prApprReassigned) ∧
    Fix.prApprReassigned.approvedBy = ["u2"] ∧
    "u2" ∈ Fix.prApprReassigned.approvedBy ∧
    "u2" ∉ Fix.prApprReassigned.assignedReviewers :=
  ⟨by decide, rfl, by decide, by decide⟩

open PrAlloc in
/-- **C3 (amended).**  Neither ReassignReviewer nor bulk team deactivation
removes approvals: a successful reassignment returns a PR whose
`approved_by` equals that of the stored PR (so a prior approval by
`old_user_id` survives, and `approved_by ⊆ assigned_reviewers` can be
violated afterwards), and every PR row after `BulkDeactivateTeamUsers`
keeps the `approved_by` it had before. -/
theorem c3_approvals_not_removed :
    (∀ st prID old pick nid st' pr',
       reassignReviewer st prID old pick = .ok (nid, st', pr') →
       ∃ pr, getPR st prID = some pr ∧
         pr'.approvedBy = pr.approvedBy) ∧
    (∀ shuffle st teamName st' n reas,
       bulkDeactivateTeamUsers shuffle st teamName = .ok (st', n, reas) →
       approvalsPreservedFrom st st') := by
  constructor
  · intro st prID old pick nid st' pr' h
    cases hg : getPR st prID with
    | none =>
      simp only [reassignReviewer, hg] at h
      exact Except.noConfusion h
    | some pr =>
      simp only [reassignReviewer, hg] at h
      refine ⟨pr, rfl, ?_⟩
      by_cases hm : pr.status = PRStatus.merged
      · rw [if_pos hm] at h
        exact Except.noConfusion h
      · rw [if_neg hm] at h
        cases hidx : pr.assignedReviewers.findIdx? (fun rid => rid = old) with
        | none =>
          rw [hidx] at h
          exact Except.noConfusion h
        | some oldIndex =>
          simp only [hidx] at h
          cases hu : getUser st old with
          | none =>
            simp only [hu] at h
            exact Except.noConfusion h
          | some oldReviewer =>
            simp only [hu] at h
            split at h
            · exact Except.noConfusion h
            · have hpr' := congrArg
                (fun x : String × AllocState × PullRequest => x.2.2)
                (Except.ok.inj h)
              simp only at hpr'
              rw [← hpr']
  · intro shuffle st teamName st' n reas h
    cases ht : getTeamByName st teamName with
    | none =>
      simp only [bulkDeactivateTeamUsers, ht] at h
      exact Except.noConfusion h
    | some team =>
      simp only [bulkDeactivateTeamUsers, ht] at h
      split at h
      · have hst := congrArg
          (fun x : AllocState × Nat × List PRReassignmentSummary => x.1)
          (Except.ok.inj h)
        simp only at hst
        intro q hq
        rw [← hst] at hq
        exact ⟨q, hq, rfl, rfl⟩
      · have hst := congrArg
          (fun x : AllocState × Nat × List PRReassignmentSummary => x.1)
          (Except.ok.inj h)
        simp only at hst
        intro q hq
        rw [← hst] at hq
        exact foldl_bulkStep_preserves shuffle _ st _
          (fun pr hpr => (List.mem_filter.mp hpr).1) (st, [])
          (fun p hp => ⟨p, hp, rfl, rfl⟩) q hq

open PrAlloc in
/-- **C3 (witness).**  The amended theorem at concrete inputs: the
reassignment of `u2` on `pr1` keeps the stored `approved_by`, and the bulk
deactivation of team `alpha` preserves every PR's `approved_by`. -/
theorem c3_witness :
    (∃ pr, getPR Fix.stOpenApproved "pr1" = some pr ∧
       Fix.prApprReassigned.approvedBy = pr.approvedBy) ∧
    approvalsPreservedFrom Fix.stOpenApproved Fix.bulkStateFix := by
  constructor
  · exact c3_approvals_not_removed.1 Fix.stOpenApproved "pr1" "u2" 0 "u3"
      (updatePR Fix.stOpenApproved Fix.prApprReassigned)
      Fix.prApprReassigned (by decide)
  · exact c3_approvals_not_removed.2 (fun l => l) Fix.stOpenApproved "alpha"
      Fix.bulkStateFix 3 Fix.bulkReportFix (by decide)

open CodeStorage in
/-- **C4.**  A `Push` that supplies an already-bound commit name is not
atomic and does not surface `COMMIT_NAME_EXISTS`: in `storeEx` the name
`main` is bound, yet pushing commit `c9` named `main` first persists the
commit (two separate SQL statements, no transaction) and then fails the
name insert with a generic internal error — the repository state has
changed on error, and the error kind is not `commitNameExists`. -/
theorem c4_name_binding_not_atomic :
    svcPush Fix.storeEx "t1" "r0" "r0" "main" [9] "c9" =
      ({ Fix.storeEx with
         commits := Fix.storeEx.commits ++ [Fix.pushedCommitFix] },
       .error .internal) ∧
    ({ Fix.storeEx with
       commits := Fix.storeEx.commits ++ [Fix.pushedCommitFix] } ≠
        Fix.storeEx) ∧
    ((Except.error StoreError.internal : Except StoreError Commit) ≠
      .error .commitNameExists) :=
  ⟨by decide, by decide, by decide⟩

open CodeStorage in
/-- **C5.**  `Service.Merge` succeeds only when both commits exist under
`(team_id, root)` and both are leaves; when they exist but are not both
leaves it fails with `COMMIT_NOT_LEAF`; on success the new commit has
parent list exactly `[a, b]` and its code is byte-identical to the code of
`a`. -/
theorem c5_merge_leaf_rule (st : StoreState) (t root a b newID : String) :
    (∀ st' c, svcMerge st t root a b newID = (st', .ok c) →
       ∃ ca, getCommit st t root a = some ca ∧
         (getCommit st t root b).isSome = true ∧
         isLeafCommit st t root a = true ∧
         isLeafCommit st t root b = true ∧
         c.parentCommitIDs = [a, b] ∧ c.code = ca.code ∧
         st'.commits = st.commits ++ [c]) ∧
    (teamExists st t = true → rootCommitExists st t root = true →
     (getCommit st t root a).isSome = true →
     (getCommit st t root b).isSome = true →
     ¬(isLeafCommit st t root a = true ∧ isLeafCommit st t root b = true) →
     svcMerge st t root a b newID = (st, .error .commitNotLeaf)) := by
  constructor
  · intro st' c h
    unfold svcMerge at h
    split_ifs at h with h1 h2 h3 h4 h5 h6
    any_goals exact Except.noConfusion (congrArg Prod.snd h)
    cases hca : getCommit st t root a with
    | none =>
      exact absurd (Option.isNone_iff_eq_none.mpr hca) h3
    | some ca =>
      unfold storMergeCommits at h
      simp only [getCommitCode, hca] at h
      have hsnd := Except.ok.inj (congrArg Prod.snd h)
      have hfst := congrArg Prod.fst h
      simp only at hsnd hfst
      refine ⟨ca, rfl, ?_, h5, h6, ?_, ?_, ?_⟩
      · cases hb : getCommit st t root b with
        | none => exact absurd (Option.isNone_iff_eq_none.mpr hb) h4
        | some cb => rfl
      · rw [← hsnd]
      · rw [← hsnd]
      · rw [← hfst, ← hsnd]
  · intro ht hr ha hb hnl
    have h1 : ¬¬(teamExists st t = true) := not_not_intro ht
    have h2 : ¬¬(rootCommitExists st t root = true) := not_not_intro hr
    have h3 : ¬((getCommit st t root a).isNone = true) := by
      cases hx : getCommit st t root a with
      | none => rw [hx] at ha; exact absurd ha (by simp)
      | some x => simp [hx]
    have h4 : ¬((getCommit st t root b).isNone = true) := by
      cases hx : getCommit st t root b with
      | none => rw [hx] at hb; exact absurd hb (by simp)
      | some x => simp [hx]
    unfold svcMerge
    rw [if_neg h1, if_neg h2, if_neg h3, if_neg h4]
    by_cases hA : isLeafCommit st t root a = true
    · have hB : ¬(isLeafCommit st t root b = true) := fun hBt => hnl ⟨hA, hBt⟩
      rw [if_neg (not_not_intro hA), if_pos hB]
    · rw [if_pos hA]

open CodeStorage in
/-- **C5 (witness).**  Merging the two leaves `c1`, `c2` of `storeEx`
succeeds with parents `[c1, c2]` and `c1`'s code; merging the root `r0`
(which has children) with `c1` fails with `COMMIT_NOT_LEAF`. -/
theorem c5_witness :
    (∃ ca, getCommit Fix.storeEx "t1" "r0" "c1" = some ca ∧
       (getCommit Fix.storeEx "t1" "r0" "c2").isSome = true ∧
       isLeafCommit Fix.storeEx "t1" "r0" "c1" = true ∧
       isLeafCommit Fix.storeEx "t1" "r0" "c2" = true ∧
       Fix.mergeCommitFix.parentCommitIDs = ["c1", "c2"] ∧
       Fix.mergeCommitFix.code = ca.code ∧
       Fix.storeExMerged.commits =
         Fix.storeEx.commits ++ [Fix.mergeCommitFix]) ∧
    svcMerge Fix.storeEx "t1" "r0" "r0" "c1" "x" =
      (Fix.storeEx, .error .commitNotLeaf) := by
  constructor
  · exact (c5_merge_leaf_rule Fix.storeEx "t1" "r0" "c1" "c2" "m1").1
      Fix.storeExMerged Fix.mergeCommitFix (by decide)
  · exact (c5_merge_leaf_rule Fix.storeEx "t1" "r0" "r0" "c1" "x").2
      (by decide) (by decide) (by decide) (by decide)
      (by intro hc; exact absurd hc.1 (by decide))

open CodeStorage in
/-- **C10.**  `Merge` never requires its two arguments to be distinct:
for any leaf commit `a` of an existing repository, `Merge(t, root, a, a)`
succeeds, the new commit has parent list `[a, a]` and the code of `a`,
and afterwards `a` is no longer a leaf. -/
theorem c10_self_merge (st : StoreState) (t root a newID : String)
    (ca : Commit) (hteam : teamExists st t = true)
    (hroot : rootCommitExists st t root = true)
    (ha : getCommit st t root a = some ca)
    (hleaf : isLeafCommit st t root a = true) :
    ∃ st' c, svcMerge st t root a a newID = (st', .ok c) ∧
      c.parentCommitIDs = [a, a] ∧ c.code = ca.code ∧
      st'.commits = st.commits ++ [c] ∧
      isLeafCommit st' t root a = false := by
  have h3 : ¬((getCommit st t root a).isNone = true) := by
    simp [ha]
  have hs : svcMerge st t root a a newID =
      ({ st with commits := st.commits ++
          [{ id := newID, teamID := t, rootCommit := root,
             parentCommitIDs := [a, a], code := ca.code }] },
       .ok { id := newID, teamID := t, rootCommit := root,
             parentCommitIDs := [a, a], code := ca.code }) := by
    unfold svcMerge
    rw [if_neg (not_not_intro hteam), if_neg (not_not_intro hroot),
        if_neg h3, if_neg h3, if_neg (not_not_intro hleaf),
        if_neg (not_not_intro hleaf)]
    unfold storMergeCommits
    simp only [getCommitCode, ha]
  refine ⟨_, _, hs, rfl, rfl, rfl, ?_⟩
  have hp : ({ id := newID, teamID := t, rootCommit := root,
               parentCommitIDs := [a, a], code := ca.code } : Commit) ∈
      st.commits ++ [{ id := newID, teamID := t, rootCommit := root,
                       parentCommitIDs := [a, a], code := ca.code }] :=
    List.mem_append_right _ (List.mem_singleton.mpr rfl)
  simp only [isLeafCommit, Bool.not_eq_false', List.any_eq_true]
  exact ⟨_, hp, by simp⟩

open CodeStorage in
/-- **C10 (witness).**  Self-merging the leaf `c1` of `storeEx` succeeds
with parents `[c1, c1]` and `c1`'s code, after which `c1` is no longer a
leaf. -/
theorem c10_witness :
    ∃ st' c, svcMerge Fix.storeEx "t1" "r0" "c1" "c1" "m2" = (st', .ok c) ∧
      c.parentCommitIDs = ["c1", "c1"] ∧ c.code = Fix.cOne.code ∧
      st'.commits = Fix.storeEx.commits ++ [c] ∧
      isLeafCommit st' "t1" "r0" "c1" = false :=
  c10_self_merge Fix.storeEx "t1" "r0" "c1" "m2" Fix.cOne (by decide)
    (by decide) (by decide) (by decide)

namespace PrAlloc

/-- Properties of `selectReviewers` under any permutation `shuffle`: the
result has length `min |C| maxCount` over the candidate set `C` (active
team members other than the author), every selected id comes from `C`, and
the author is never selected. -/
theorem selectReviewers_spec (shuffle : List User → List User)
    (teamMembers : List User) (authorID : String) (maxCount : Nat)
    (hperm : (shuffle (teamMembers.filter
        (fun m => m.isActive && m.userID ≠ authorID))).Perm
      (teamMembers.filter (fun m => m.isActive && m.userID ≠ authorID))) :
    (selectReviewers shuffle teamMembers authorID maxCount).length =
      min (teamMembers.filter
        (fun m => m.isActive && m.userID ≠ authorID)).length maxCount ∧
    (∀ r ∈ selectReviewers shuffle teamMembers authorID maxCount,
       ∃ u ∈ teamMembers.filter (fun m => m.isActive && m.userID ≠ authorID),
         u.userID = r) ∧
    authorID ∉ selectReviewers shuffle teamMembers authorID maxCount := by
  simp only [selectReviewers]
  by_cases hE : (teamMembers.filter
      (fun m => m.isActive && m.userID ≠ authorID)).isEmpty
  · rw [if_pos hE]
    have hnil : teamMembers.filter
        (fun m => m.isActive && m.userID ≠ authorID) = [] :=
      List.isEmpty_iff.mp hE
    refine ⟨?_, ?_, ?_⟩
    · rw [hnil]
      simp
    · intro r hr
      exact absurd hr (List.not_mem_nil r)
    · exact List.not_mem_nil authorID
  · rw [if_neg hE]
    have hlen : (shuffle (teamMembers.filter
        (fun m => m.isActive && m.userID ≠ authorID))).length =
        (teamMembers.filter
          (fun m => m.isActive && m.userID ≠ authorID)).length :=
      hperm.length_eq
    refine ⟨?_, ?_, ?_⟩
    · rw [List.length_map, List.length_take, hlen]
      exact min_eq_left (min_le_left _ _)
    · intro r hr
      simp only [List.mem_map] at hr
      obtain ⟨u, hu, hur⟩ := hr
      exact ⟨u, hperm.mem_iff.mp (List.mem_of_mem_take hu), hur⟩
    · intro hmem
      simp only [List.mem_map] at hmem
      obtain ⟨u, hu, hur⟩ := hmem
      have huC := hperm.mem_iff.mp (List.mem_of_mem_take hu)
      have hpred := (List.mem_filter.mp huC).2
      simp only [Bool.and_eq_true, decide_eq_true_eq] at hpred
      exact hpred.2 hur

end PrAlloc

open PrAlloc PrAllocK2 in
/-- **C6.**  A successful CreatePR assigns a reviewer list drawn from the
candidate set `C` of active team members of the author distinct from the
author, of length `min |C| K` — with `K` the profile's cap (1 in the
primary service, 2 in the alternate profile; the statement quantifies over
the cap for the shared logic and instantiates the alternate profile at
its literal cap 2) — the author is never assigned, and with `C` empty the
PR is still created with status `OPEN` and an empty reviewer list. -/
theorem c6_create_pr_reviewers :
    (∀ shuffle st prID prName authorID k author,
       prExists st prID = false →
       getUser st authorID = some author →
       author.teamID ≠ "" →
       (shuffle ((getUsersByTeamID st author.teamID).filter
           (fun m => m.isActive && m.userID ≠ author.userID))).Perm
         ((getUsersByTeamID st author.teamID).filter
           (fun m => m.isActive && m.userID ≠ author.userID)) →
       ∃ st' pr, createPR shuffle st prID prName authorID k = .ok (st', pr) ∧
         pr.status = PRStatus.opened ∧ pr.approvedBy = [] ∧
         pr.assignedReviewers.length =
           min ((getUsersByTeamID st author.teamID).filter
             (fun m => m.isActive && m.userID ≠ author.userID)).length k ∧
         (∀ r ∈ pr.assignedReviewers,
            ∃ u, u ∈ getUsersByTeamID st author.teamID ∧
              u.isActive = true ∧ u.userID ≠ author.userID ∧ u.userID = r) ∧
         authorID ∉ pr.assignedReviewers ∧
         (((getUsersByTeamID st author.teamID).filter
             (fun m => m.isActive && m.userID ≠ author.userID)) = [] →
           pr.assignedReviewers = []) ∧
         st'.prs = st.prs ++ [pr]) ∧
    (∀ shuffle st prID prName authorID author,
       prExists2 st prID = false →
       getUser2 st authorID = some author →
       author.teamName ≠ "" →
       (shuffle ((getUsersByTeam2 st author.teamName).filter
           (fun m => m.isActive && m.userID ≠ author.userID))).Perm
         ((getUsersByTeam2 st author.teamName).filter
           (fun m => m.isActive && m.userID ≠ author.userID)) →
       ∃ st' pr, createPR2 shuffle st prID prName authorID = .ok (st', pr) ∧
         pr.status = PRStatus2.opened ∧
         pr.assignedReviewers.length =
           min ((getUsersByTeam2 st author.teamName).filter
             (fun m => m.isActive && m.userID ≠ author.userID)).length 2 ∧
         authorID ∉ pr.assignedReviewers ∧
         (((getUsersByTeam2 st author.teamName).filter
             (fun m => m.isActive && m.userID ≠ author.userID)) = [] →
           pr.assignedReviewers = [])) := by
  constructor
  · intro shuffle st prID prName authorID k author hnew hauthor hteam hperm
    have hps := List.find?_some hauthor
    simp only [decide_eq_true_eq] at hps
    have hsel := selectReviewers_spec shuffle
      (getUsersByTeamID st author.teamID) author.userID k hperm
    let pr0 : PullRequest := { prID := prID, prName := prName, authorID := authorID, status := PRStatus.opened, assignedReviewers := selectReviewers shuffle (getUsersByTeamID st author.teamID) author.userID k, approvedBy := [], mergedAt := none }
    refine ⟨{ st with prs := st.prs ++ [pr0] }, pr0,
      ?_, rfl, rfl, hsel.1, ?_, ?_, ?_, rfl⟩
    · simp only [createPR, hnew, hauthor, Bool.false_eq_true, if_false,
        if_neg hteam]
    · intro r hr
      obtain ⟨u, hu, hur⟩ := hsel.2.1 r hr
      have hm := List.mem_filter.mp hu
      have hpred := hm.2
      simp only [Bool.and_eq_true, decide_eq_true_eq] at hpred
      exact ⟨u, hm.1, hpred.1, hpred.2, hur⟩
    · rw [← hps]
      exact hsel.2.2
    · intro hC
      have h0 := hsel.1
      rw [hC] at h0
      simp only [List.length_nil, Nat.zero_min] at h0
      exact List.length_eq_zero.mp h0
  · intro shuffle st prID prName authorID author hnew hauthor hteam hperm
    have hps := List.find?_some hauthor
    simp only [decide_eq_true_eq] at hps
    have hsel := selectReviewers_spec shuffle
      (getUsersByTeam2 st author.teamName) author.userID 2 hperm
    let pr0 : PullRequest2 := { prID := prID, prName := prName, authorID := authorID, status := PRStatus2.opened, assignedReviewers := selectReviewers shuffle (getUsersByTeam2 st author.teamName) author.userID 2, mergedAt := none }
    refine ⟨{ st with prs := st.prs ++ [pr0] }, pr0,
      ?_, rfl, hsel.1, ?_, ?_⟩
    · simp only [createPR2, hnew, hauthor, Bool.false_eq_true, if_false,
        if_neg hteam]
    · rw [← hps]
      exact hsel.2.2
    · intro hC
      have h0 := hsel.1
      rw [hC] at h0
      simp only [List.length_nil, Nat.zero_min] at h0
      exact List.length_eq_zero.mp h0

open PrAlloc PrAllocK2 in
/-- **C6 (witness).**  CreatePR evaluated concretely: author `u1` with
active teammates `u2`, `u3` under cap 1 (primary) and, in the alternate
profile, author `u1` with teammate `u2` under cap 2. -/
theorem c6_witness :
    (∃ st' pr, createPR (fun l => l) Fix.stOpenUnapproved "pr9" "demo" "u1" 1
        = .ok (st', pr) ∧
      pr.status = PRStatus.opened ∧ pr.approvedBy = [] ∧
      pr.assignedReviewers.length =
        min ((getUsersByTeamID Fix.stOpenUnapproved "t1").filter
          (fun m => m.isActive && m.userID ≠ "u1")).length 1 ∧
      (∀ r ∈ pr.assignedReviewers,
         ∃ u, u ∈ getUsersByTeamID Fix.stOpenUnapproved "t1" ∧
           u.isActive = true ∧ u.userID ≠ "u1" ∧ u.userID = r) ∧
      "u1" ∉ pr.assignedReviewers ∧
      (((getUsersByTeamID Fix.stOpenUnapproved "t1").filter
          (fun m => m.isActive && m.userID ≠ "u1")) = [] →
        pr.assignedReviewers = []) ∧
      st'.prs = Fix.stOpenUnapproved.prs ++ [pr]) ∧
    (∃ st' pr, createPR2 (fun l => l) Fix.st2Open "pr9" "demo" "u1"
        = .ok (st', pr) ∧
      pr.status = PRStatus2.opened ∧
      pr.assignedReviewers.length =
        min ((getUsersByTeam2 Fix.st2Open "alpha").filter
          (fun m => m.isActive && m.userID ≠ "u1")).length 2 ∧
      "u1" ∉ pr.assignedReviewers ∧
      (((getUsersByTeam2 Fix.st2Open "alpha").filter
          (fun m => m.isActive && m.userID ≠ "u1")) = [] →
        pr.assignedReviewers = [])) :=
  ⟨c6_create_pr_reviewers.1 (fun l => l) Fix.stOpenUnapproved "pr9" "demo"
      "u1" 1 Fix.uAlice (by decide) (by decide) (by decide)
      (List.Perm.refl _),
   c6_create_pr_reviewers.2 (fun l => l) Fix.st2Open "pr9" "demo" "u1"
      Fix.uAlice (by decide) (by decide) (by decide) (List.Perm.refl _)⟩

namespace PrAlloc

/-- A successful ApprovePR always returns a PR in status `OPEN` (the
operation requires `OPEN` and never changes the status). -/
theorem approvePR_ok_status (st : AllocState) (prID rid : String)
    (st' : AllocState) (pr' : PullRequest) (b : Bool)
    (h : approvePR st prID rid = .ok (st', pr', b)) :
    pr'.status = PRStatus.opened := by
  cases hg : getPR st prID with
  | none =>
    simp only [approvePR, hg] at h
    exact Except.noConfusion h
  | some pr =>
    simp only [approvePR, hg] at h
    by_cases ho : pr.status = PRStatus.opened
    · rw [if_neg (not_not_intro ho)] at h
      split_ifs at h
      all_goals first
        | exact Except.noConfusion h
        | · have hpr' := congrArg
              (fun x : AllocState × PullRequest × Bool => x.2.1)
              (Except.ok.inj h)
            simp only at hpr'
            rw [← hpr']
            exact ho
    · rw [if_pos ho] at h
      exact Except.noConfusion h

end PrAlloc

open Gateway PrAlloc CodeStorage in
/-- **C2.**  Gateway approve-and-merge on an existing PR by an authorized
reviewer: if the Allocation approval reports `all_approved = false`, the
gateway returns the PR (still `OPEN`) with no merge commit and the storage
backend is untouched; if `all_approved = true`, the gateway first calls
`Storage.Merge(team_id, root, source, target)` obtaining the merge commit
`M`, then calls `Allocation.MergePR` on the approval-updated allocation
state, and returns the updated PR together with `M`. -/
theorem c2_gateway_approve_merge
    (g : GatewayState) (username teamName prName newID : String) (now : Nat)
    (meta : PRMetadata) (prID : String) (st1 : AllocState)
    (pr : PullRequest) (b : Bool)
    (hmeta : lookupMeta g (teamName ++ ":" ++ prName) = some meta)
    (hauth : verifyUserAccess g.alloc username teamName = none)
    (hfind : findPRID g meta = some prID)
    (happrove : approvePR g.alloc prID username = .ok (st1, pr, b)) :
    (b = false →
       gatewayApprovePR g username teamName prName newID now =
         ({ g with alloc := st1 }, .ok (pr, none)) ∧
       pr.status = PRStatus.opened) ∧
    (b = true →
       ∀ store1 M st2 pr2,
         svcMerge g.store meta.teamID meta.rootCommit meta.sourceCommit
           meta.targetCommit newID = (store1, .ok M) →
         mergePR st1 prID now = .ok (st2, pr2) →
         gatewayApprovePR g username teamName prName newID now =
           ({ alloc := st2, store := store1, prMetadata := g.prMetadata },
            .ok (pr2, some M))) := by
  constructor
  · intro hb
    subst hb
    refine ⟨?_, approvePR_ok_status g.alloc prID username st1 pr false
      happrove⟩
    simp [gatewayApprovePR, hmeta, hauth, hfind, happrove]
  · intro hb store1 M st2 pr2 hmerge hmergePR
    subst hb
    simp [gatewayApprovePR, hmeta, hauth, hfind, happrove, hmerge, hmergePR]

open Gateway PrAlloc CodeStorage in
/-- **C2 (witness).**  The gateway evaluated concretely: with two assigned
reviewers a single approval returns the still-open PR and no merge commit;
with one assigned reviewer the approval triggers the storage merge and the
allocation merge, returning the merged PR and the merge commit. -/
theorem c2_witness :
    (gatewayApprovePR Fix.gwTwo "u2" "alpha" "feature" "m1" 9 =
       ({ Fix.gwTwo with
          alloc := updatePR Fix.gwTwo.alloc Fix.prGwTwoApproved },
        .ok (Fix.prGwTwoApproved, none)) ∧
     Fix.prGwTwoApproved.status = PRStatus.opened) ∧
    gatewayApprovePR Fix.gwOne "u2" "alpha" "feature" "m1" 9 =
      ({ alloc := updatePR (updatePR Fix.gwOne.alloc Fix.prGwOneApproved)
           Fix.prGwOneMerged,
         store := Fix.storeExMerged,
         prMetadata := Fix.gwOne.prMetadata },
       .ok (Fix.prGwOneMerged, some Fix.mergeCommitFix)) := by
  constructor
  · exact (c2_gateway_approve_merge Fix.gwTwo "u2" "alpha" "feature" "m1" 9
      Fix.metaEx "pr-1" (updatePR Fix.gwTwo.alloc Fix.prGwTwoApproved)
      Fix.prGwTwoApproved false (by decide) (by decide) (by decide)
      (by decide)).1 rfl
  · exact (c2_gateway_approve_merge Fix.gwOne "u2" "alpha" "feature" "m1" 9
      Fix.metaEx "pr-1" (updatePR Fix.gwOne.alloc Fix.prGwOneApproved)
      Fix.prGwOneApproved true (by decide) (by decide) (by decide)
      (by decide)).2 rfl Fix.storeExMerged Fix.mergeCommitFix
      (updatePR (updatePR Fix.gwOne.alloc Fix.prGwOneApproved)
        Fix.prGwOneMerged)
      Fix.prGwOneMerged (by decide) (by decide)
